import Mathlib

/-!
Shallow embedding of the performance-tooling scripts
`scripts/perftools/csv_parser.py` and `scripts/perftools/nsys_ncu_profiling.py`.

Tables are modelled by their textual content: a `Table` is the ordered list of
column headers together with the ordered list of data rows, each cell being the
string the corresponding CSV cell holds (the Python code row-matches against
`str(cell)`, so the textual content is exactly what the matching logic sees; a
numeric cell such as the float 43392.0 is represented by its text "43392.0").
-/

/-- `startsWithChars needle hay` is true when `needle` is an initial segment of
`hay` (character lists). Models the anchored comparison underlying Python's
substring test. -/
def startsWithChars : List Char → List Char → Bool
  | [], _ => true
  | _ :: _, [] => false
  | a :: as, b :: bs => a == b && startsWithChars as bs

/-- `hasSub hay needle` is true when `needle` occurs contiguously inside `hay`.
Models Python's `needle in hay` on strings (character-exact, case-sensitive;
the empty needle always matches). -/
def hasSub : List Char → List Char → Bool
  | [], needle => startsWithChars needle []
  | c :: t, needle => startsWithChars needle (c :: t) || hasSub t needle

/-- `strContains s sub` models Python's `sub in s`. -/
def strContains (s sub : String) : Bool :=
  hasSub s.data sub.data

/-- Models Python's `' '.join(cells)`: empty for no cells, otherwise the cells
separated by single spaces. Used by `find_kernel_metric` on each data row. -/
def rowStr : List String → String
  | [] => ""
  | [c] => c
  | c :: c2 :: rest => c ++ " " ++ rowStr (c2 :: rest)

/-- Row test of `find_kernel_metric` (csv_parser.py lines 46-53): the kernel
name must occur in the space-joined text of all cells of the row
(`kernel_name in row_str`), case-sensitively. -/
def rowMatches (kernel_name : String) (row : List String) : Bool :=
  strContains (rowStr row) kernel_name

/-- Character-wise lower-casing of a string, as Python's `str.lower` acts on
the ASCII text appearing in trace-table headers. -/
def lowerStr (s : String) : String :=
  ⟨s.data.map Char.toLower⟩

/-- Column test of `find_kernel_metric` (csv_parser.py lines 60-65): the
lower-cased metric name must occur in the lower-cased header text
(`metric_name_lower in str(col_name).lower()`). -/
def colMatches (metric_name header : String) : Bool :=
  strContains (lowerStr header) (lowerStr metric_name)

/-- Index of the first list element satisfying `p`, or `none`. Models the
Python `for ...: if ...: break` scans over rows and columns. -/
def firstIdx {α : Type} (p : α → Bool) : List α → Option Nat
  | [] => none
  | x :: xs => if p x then some 0 else (firstIdx p xs).map (· + 1)

/-- In-memory table: ordered headers and ordered rows of textual cells.
Models the `pandas.DataFrame` loaded by `pd.read_csv`/`pd.read_excel`
(which yields a rectangular table with distinct, order-preserving headers). -/
structure Table where
  headers : List String
  rows : List (List String)

/-- Step 2 of `find_kernel_metric`: index of the first row whose space-joined
cell text contains `kernel_name`. -/
def findRowIdx (t : Table) (kernel_name : String) : Option Nat :=
  firstIdx (rowMatches kernel_name) t.rows

/-- Step 3 of `find_kernel_metric`: index of the first header containing
`metric_name` case-insensitively. The Python code records the column name and
accesses by it; since pandas-loaded headers are distinct, accessing by the
first matching index is the same cell. -/
def findColIdx (headers : List String) (metric_name : String) : Option Nat :=
  firstIdx (colMatches metric_name) headers

/-- Cell of `t` at row `rid`, column `cid`. Models `df.loc[row_id, col_id]`;
the defaults are never reached on the rectangular tables pandas produces when
`rid` and `cid` come from successful searches. -/
def cellAt (t : Table) (rid cid : Nat) : String :=
  (t.rows.getD rid []).getD cid ""

/-- Core of `find_kernel_metric` (csv_parser.py lines 34-76) after the file
has been loaded into a `Table`: locate the first matching row, then the first
case-insensitively matching column, and return the cell at the intersection;
`none` models the Python `None` returned when either search fails. -/
def find_kernel_metric (t : Table) (kernel_name metric_name : String) : Option String :=
  match findRowIdx t kernel_name with
  | none => none
  | some rid =>
    match findColIdx t.headers metric_name with
    | none => none
    | some cid => some (cellAt t rid cid)

/-- Core of `find_all_kernel_metrics` (csv_parser.py lines 85-137) after the
file has been loaded: one row search, then one column search per requested
metric; metrics whose column search fails are skipped (`break` never fires and
nothing is added to `results`). The result models the Python `results` dict as
an association list in request order. -/
def find_all_kernel_metrics (t : Table) (kernel_name : String)
    (metric_names : List String) : List (String × String) :=
  match findRowIdx t kernel_name with
  | none => []
  | some rid =>
    metric_names.filterMap (fun m =>
      (findColIdx t.headers m).map (fun cid => (m, cellAt t rid cid)))

/-- Diagnostics printed by the lookup routines (the `print` calls on the
warning and error paths of csv_parser.py). -/
inductive Diag where
  | fileNotFound (path : String)
  | processError (msg : String)
  | kernelNotFound (kernel : String)
  | metricNotFound (metric : String)
deriving DecidableEq

/-- Outcome of the `pd.read_csv`/`pd.read_excel` call: a loaded table, a
`FileNotFoundError`, or any other exception raised while loading/processing
the file. -/
inductive LoadResult where
  | ok (t : Table)
  | missingFile (path : String)
  | loadError (msg : String)

/-- `find_kernel_metric` including its `try`/`except` shell (csv_parser.py
lines 34-83): a `FileNotFoundError` is caught by its dedicated handler and
reported as a file diagnostic; any other exception is caught by the generic
handler; both return `None`. No exception escapes to the caller, which the
totality of this function models. The second component collects the
warning/error diagnostics printed. -/
def find_kernel_metric_io (lr : LoadResult) (kernel_name metric_name : String) :
    Option String × List Diag :=
  match lr with
  | .missingFile p => (none, [.fileNotFound p])
  | .loadError msg => (none, [.processError msg])
  | .ok t =>
    match findRowIdx t kernel_name with
    | none => (none, [.kernelNotFound kernel_name])
    | some rid =>
      match findColIdx t.headers metric_name with
      | none => (none, [.metricNotFound metric_name])
      | some cid => (some (cellAt t rid cid), [])

/-- `find_all_kernel_metrics` including its `try`/`except` shell
(csv_parser.py lines 104-137): a single generic handler catches every
exception (including `FileNotFoundError`) and returns the results gathered so
far (empty when loading itself failed). -/
def find_all_kernel_metrics_io (lr : LoadResult) (kernel_name : String)
    (metric_names : List String) : List (String × String) × List Diag :=
  match lr with
  | .missingFile p => ([], [.processError p])
  | .loadError msg => ([], [.processError msg])
  | .ok t =>
    match findRowIdx t kernel_name with
    | none => ([], [.kernelNotFound kernel_name])
    | some rid =>
      (metric_names.filterMap (fun m =>
        (findColIdx t.headers m).map (fun cid => (m, cellAt t rid cid))), [])

/-- The concrete table of the spec scenario: header `Kernel,Duration,Start`
and one data row. -/
def sampleTable : Table :=
  ⟨["Kernel", "Duration", "Start"], [["topKStage1_kernel", "43392.0", "100"]]⟩

/-- C1: on a table with header row `["Kernel","Duration","Start"]` and single
data row `["topKStage1_kernel","43392.0","100"]`, the single-metric lookup
with row substring "topKStage1" and metric substring "duration" returns the
cell 43392.0 at the intersection of the matched row and the case-insensitively
matched "Duration" column. -/
theorem C1_single_lookup_concrete :
    find_kernel_metric sampleTable "topKStage1" "duration" = some "43392.0" ∧
    find_kernel_metric_io (.ok sampleTable) "topKStage1" "duration" =
      (some "43392.0", []) := by
  constructor <;> decide

theorem firstIdx_eq_none {α : Type} {p : α → Bool} {l : List α}
    (h : ∀ x ∈ l, p x = false) : firstIdx p l = none := by
  induction l with
  | nil => rfl
  | cons x xs ih =>
    simp only [firstIdx, h x (List.mem_cons_self x xs)]
    simp only [Bool.false_eq_true, if_false]
    rw [ih (fun y hy => h y (List.mem_cons_of_mem x hy))]
    rfl

theorem firstIdx_spec {α : Type} {p : α → Bool} (d : α) :
    ∀ {l : List α} {i : Nat}, firstIdx p l = some i →
      i < l.length ∧ p (l.getD i d) = true ∧ ∀ j, j < i → p (l.getD j d) = false := by
  intro l
  induction l with
  | nil => intro i h; simp [firstIdx] at h
  | cons x xs ih =>
    intro i h
    by_cases hx : p x = true
    · simp only [firstIdx, hx, if_true] at h
      cases h
      refine ⟨Nat.succ_pos _, hx, ?_⟩
      intro j hj; omega
    · simp only [firstIdx, hx, if_false] at h
      cases hi : firstIdx p xs with
      | none => rw [hi] at h; simp at h
      | some i0 =>
        rw [hi] at h
        simp only [Option.map_some'] at h
        cases h
        obtain ⟨h1, h2, h3⟩ := ih hi
        refine ⟨by simpa using Nat.succ_lt_succ h1, by simpa using h2, ?_⟩
        intro j hj
        cases j with
        | zero => simpa using (Bool.eq_false_iff.mpr hx)
        | succ j0 =>
          simp only [List.getD_cons_succ]
          exact h3 j0 (by omega)

theorem firstIdx_unique {α : Type} {p : α → Bool} (d : α) :
    ∀ {l : List α} {i : Nat}, i < l.length → p (l.getD i d) = true →
      (∀ j, j < l.length → j ≠ i → p (l.getD j d) = false) →
      firstIdx p l = some i := by
  intro l
  induction l with
  | nil => intro i h; simp at h
  | cons x xs ih =>
    intro i hi hp hu
    cases i with
    | zero =>
      simp only [List.getD_cons_zero] at hp
      simp [firstIdx, hp]
    | succ i0 =>
      have hx : p x = false := by
        have := hu 0 (Nat.succ_pos _) (by omega)
        simpa using this
      simp only [firstIdx, hx, Bool.false_eq_true, if_false]
      rw [ih (by simpa using Nat.lt_of_succ_lt_succ hi) (by simpa using hp)
        (fun j hj hne => by
          have := hu (j + 1) (by simpa using Nat.succ_lt_succ hj) (by omega)
          simpa using this)]
      rfl

theorem firstIdx_map {α β : Type} (p : β → Bool) (f : α → β) :
    ∀ l : List α, firstIdx p (l.map f) = firstIdx (fun a => p (f a)) l := by
  intro l
  induction l with
  | nil => rfl
  | cons x xs ih => simp only [List.map_cons, firstIdx, ih]

theorem firstIdx_congr {α : Type} {p q : α → Bool} :
    ∀ {l : List α}, (∀ x ∈ l, p x = q x) → firstIdx p l = firstIdx q l := by
  intro l
  induction l with
  | nil => intro _; rfl
  | cons x xs ih =>
    intro h
    simp only [firstIdx, h x (List.mem_cons_self x xs),
      ih (fun y hy => h y (List.mem_cons_of_mem x hy))]

/-- C2: whenever no row's space-joined cell text contains the row substring,
the single-metric lookup returns `None` (modelled by totality: no exception
reaches the caller), whatever the metric substring; with the try/except shell
it additionally emits the kernel-not-found diagnostic. -/
theorem C2_row_not_found (t : Table) (kernel_name metric_name : String)
    (h : ∀ r ∈ t.rows, rowMatches kernel_name r = false) :
    find_kernel_metric t kernel_name metric_name = none ∧
    find_kernel_metric_io (.ok t) kernel_name metric_name =
      (none, [Diag.kernelNotFound kernel_name]) := by
  have hrow : findRowIdx t kernel_name = none := firstIdx_eq_none h
  constructor
  · simp [find_kernel_metric, hrow]
  · simp [find_kernel_metric_io, hrow]

/-- Witness for C2: on the concrete spec table, row substring "missingKernel"
matches no row, and the lookup returns `None` with the kernel-not-found
diagnostic. -/
theorem C2_row_not_found_witness :
    find_kernel_metric sampleTable "missingKernel" "duration" = none ∧
    find_kernel_metric_io (.ok sampleTable) "missingKernel" "duration" =
      (none, [Diag.kernelNotFound "missingKernel"]) :=
  C2_row_not_found sampleTable "missingKernel" "duration" (by decide)

/-- C3: column matching is case-insensitive substring matching over header
text and selects the first matching header in declared order: (i) if no header
matches, the lookup returns `None`; (ii) a successful column search returns an
in-range index whose header matches while every earlier header does not;
(iii) on the concrete spec table the header "Duration" is found by each of
"duration", "DURATION" and "Dur", a non-matching metric yields `None`, and
with headers `["Start","Duration"]` the metric substring "t" (matching both)
selects the earlier "Start" column. -/
theorem C3_column_matching :
    (∀ (t : Table) (kernel_name metric_name : String),
      (∀ h ∈ t.headers, colMatches metric_name h = false) →
      find_kernel_metric t kernel_name metric_name = none) ∧
    (∀ (headers : List String) (metric_name : String) (cid : Nat),
      findColIdx headers metric_name = some cid →
      cid < headers.length ∧ colMatches metric_name (headers.getD cid "") = true ∧
        ∀ j, j < cid → colMatches metric_name (headers.getD j "") = false) ∧
    (find_kernel_metric sampleTable "topKStage1" "duration" = some "43392.0" ∧
     find_kernel_metric sampleTable "topKStage1" "DURATION" = some "43392.0" ∧
     find_kernel_metric sampleTable "topKStage1" "Dur" = some "43392.0" ∧
     find_kernel_metric sampleTable "topKStage1" "Watts" = none ∧
     find_kernel_metric ⟨["Start", "Duration"], [["10", "99"]]⟩ "10" "t" = some "10") := by
  refine ⟨?_, ?_, by decide⟩
  · intro t kernel_name metric_name h
    have hcol : findColIdx t.headers metric_name = none := firstIdx_eq_none h
    cases hrow : findRowIdx t kernel_name with
    | none => simp [find_kernel_metric, hrow]
    | some rid => simp [find_kernel_metric, hrow, hcol]
  · intro headers metric_name cid h
    exact firstIdx_spec "" h

/-- Witness for C3: the no-matching-header branch applied to a concrete table,
and the first-match specification applied to the concrete column search on the
spec table's headers. -/
theorem C3_column_matching_witness :
    find_kernel_metric sampleTable "topKStage1" "Watts" = none ∧
    (1 < 3 ∧ colMatches "duration" "Duration" = true ∧
      ∀ j, j < 1 → colMatches "duration" (["Kernel", "Duration", "Start"].getD j "") = false) :=
  ⟨C3_column_matching.1 sampleTable "topKStage1" "Watts" (by decide),
   by
    have h := C3_column_matching.2.1 ["Kernel", "Duration", "Start"] "duration" 1 (by decide)
    simpa using h⟩

/-- C5: the batch lookup performs the row search once and then only a column
search per requested metric (its definition branches on a single `findRowIdx`
call); its result mapping holds exactly the requested metrics whose substring
matched some header, in request order, and a pair belongs to it precisely when
the single-metric lookup would return that value — so a metric matching no
header is silently absent rather than an error. -/
theorem C5_batch_lookup :
    (∀ (t : Table) (kernel_name : String) (metric_names : List String),
      (find_all_kernel_metrics t kernel_name metric_names).map Prod.fst =
        match findRowIdx t kernel_name with
        | none => []
        | some _ => metric_names.filter (fun m => (findColIdx t.headers m).isSome)) ∧
    (∀ (t : Table) (kernel_name : String) (metric_names : List String)
        (m v : String),
      (m, v) ∈ find_all_kernel_metrics t kernel_name metric_names ↔
        m ∈ metric_names ∧ find_kernel_metric t kernel_name m = some v) := by
  constructor
  · intro t kernel_name metric_names
    cases hrow : findRowIdx t kernel_name with
    | none => simp [find_all_kernel_metrics, hrow]
    | some rid =>
      simp only [find_all_kernel_metrics, hrow]
      induction metric_names with
      | nil => rfl
      | cons m ms ih =>
        cases hc : findColIdx t.headers m with
        | none => simp [List.filterMap_cons, List.filter_cons, hc, ih]
        | some cid => simp [List.filterMap_cons, List.filter_cons, hc, ih]
  · intro t kernel_name metric_names m v
    cases hrow : findRowIdx t kernel_name with
    | none => simp [find_all_kernel_metrics, find_kernel_metric, hrow]
    | some rid =>
      simp only [find_all_kernel_metrics, find_kernel_metric, hrow,
        List.mem_filterMap, Option.map_eq_some']
      constructor
      · rintro ⟨m0, hm0, cid, hcid, heq⟩
        cases heq
        exact ⟨hm0, by simp [hcid]⟩
      · rintro ⟨hm, hv⟩
        cases hc : findColIdx t.headers m with
        | none => rw [hc] at hv; simp at hv
        | some cid =>
          rw [hc] at hv
          simp only [Option.some_inj] at hv
          exact ⟨m, hm, cid, hc, by rw [hv]⟩

/-- C6: for both lookup operations, a missing table file produces a diagnostic
distinct from the row/column-not-found diagnostics, any other load failure is
caught and surfaces as the not-found result with a diagnostic, and every error
path returns normally (the functions are total, so no exception reaches the
caller). -/
theorem C6_failure_semantics :
    (∀ (path msg kernel_name metric_name : String),
      find_kernel_metric_io (.missingFile path) kernel_name metric_name =
        (none, [Diag.fileNotFound path]) ∧
      find_kernel_metric_io (.loadError msg) kernel_name metric_name =
        (none, [Diag.processError msg])) ∧
    (∀ (path k m : String),
      Diag.fileNotFound path ≠ Diag.kernelNotFound k ∧
      Diag.fileNotFound path ≠ Diag.metricNotFound m ∧
      ∀ msg, Diag.processError msg ≠ Diag.kernelNotFound k ∧
        Diag.processError msg ≠ Diag.metricNotFound m) ∧
    (∀ (path msg kernel_name : String) (metric_names : List String),
      find_all_kernel_metrics_io (.missingFile path) kernel_name metric_names =
        ([], [Diag.processError path]) ∧
      find_all_kernel_metrics_io (.loadError msg) kernel_name metric_names =
        ([], [Diag.processError msg])) := by
  refine ⟨fun path msg k m => ⟨rfl, rfl⟩, fun path k m => ⟨?_, ?_, fun msg => ⟨?_, ?_⟩⟩,
    fun path msg k ms => ⟨rfl, rfl⟩⟩ <;> intro h <;> cases h

theorem startsWith_append_sep (x : Char) (b : List Char) :
    ∀ (a k : List Char), x ∉ k →
      startsWithChars k (a ++ x :: b) = startsWithChars k a := by
  intro a
  induction a with
  | nil =>
    intro k hx
    cases k with
    | nil => rfl
    | cons c k0 =>
      have hc : (c == x) = false := by
        refine beq_eq_false_iff_ne.mpr ?_
        intro h
        exact hx (by simp [h])
      simp [startsWithChars, hc]
  | cons a0 as ih =>
    intro k hx
    cases k with
    | nil => rfl
    | cons c k0 =>
      have hk0 : x ∉ k0 := fun h => hx (List.mem_cons_of_mem c h)
      show (c == a0 && startsWithChars k0 (as ++ x :: b)) =
        (c == a0 && startsWithChars k0 as)
      rw [ih k0 hk0]

theorem hasSub_append_sep (x : Char) (b : List Char) :
    ∀ (a k : List Char), x ∉ k →
      hasSub (a ++ x :: b) k = (hasSub a k || hasSub b k) := by
  intro a
  induction a with
  | nil =>
    intro k hx
    show (startsWithChars k ([] ++ x :: b) || hasSub b k) =
      (startsWithChars k [] || hasSub b k)
    rw [startsWith_append_sep x b [] k hx]
  | cons a0 as ih =>
    intro k hx
    show (startsWithChars k ((a0 :: as) ++ x :: b) || hasSub (as ++ x :: b) k) =
      ((startsWithChars k (a0 :: as) || hasSub as k) || hasSub b k)
    rw [startsWith_append_sep x b (a0 :: as) k hx, ih k hx, Bool.or_assoc]

theorem data_append (a b : String) : (a ++ b).data = a.data ++ b.data :=
  String.data_append a b

theorem rowMatches_eq_any (k : String) (hk : ' ' ∉ k.data) :
    ∀ (r : List String), r ≠ [] →
      rowMatches k r = r.any (fun c => strContains c k) := by
  intro r
  induction r with
  | nil => intro h; exact absurd rfl h
  | cons c rest ih =>
    intro _
    cases rest with
    | nil =>
      simp [rowMatches, rowStr, strContains, List.any_cons]
    | cons c2 rest2 =>
      have hdata : (rowStr (c :: c2 :: rest2)).data =
          c.data ++ ' ' :: (rowStr (c2 :: rest2)).data := by
        show ((c ++ " ") ++ rowStr (c2 :: rest2)).data = _
        rw [data_append, data_append, List.append_assoc]
        rfl
      simp only [rowMatches, strContains, hdata,
        hasSub_append_sep ' ' (rowStr (c2 :: rest2)).data c.data k.data hk]
      rw [show hasSub (rowStr (c2 :: rest2)).data k.data =
            rowMatches k (c2 :: rest2) from rfl,
        ih (by simp)]
      simp [List.any_cons, strContains]

/-- C10: in both lookups, row matching is case-sensitive (unlike the
case-insensitive column matching) and runs over the space-joined text of every
cell: on the table with headers `["Kernel","Duration"]` and rows
`[["alpha","123.5"],["beta","678.0"]]`, the upper-cased row substring "ALPHA"
finds nothing while "alpha" succeeds (and the upper-cased metric substring
"DURATION" still succeeds); the substring "23.5" selects the first row via its
numeric Duration cell; and "alpha 123" selects it by spanning the boundary
between the two cells, occurring in no individual cell. -/
theorem C10_row_matching_semantics :
    find_kernel_metric ⟨["Kernel", "Duration"], [["alpha", "123.5"], ["beta", "678.0"]]⟩
      "ALPHA" "Duration" = none ∧
    find_kernel_metric ⟨["Kernel", "Duration"], [["alpha", "123.5"], ["beta", "678.0"]]⟩
      "alpha" "Duration" = some "123.5" ∧
    find_kernel_metric ⟨["Kernel", "Duration"], [["alpha", "123.5"], ["beta", "678.0"]]⟩
      "alpha" "DURATION" = some "123.5" ∧
    find_kernel_metric ⟨["Kernel", "Duration"], [["alpha", "123.5"], ["beta", "678.0"]]⟩
      "23.5" "Duration" = some "123.5" ∧
    find_kernel_metric ⟨["Kernel", "Duration"], [["alpha", "123.5"], ["beta", "678.0"]]⟩
      "alpha 123" "Duration" = some "123.5" ∧
    strContains "alpha" "alpha 123" = false ∧
    strContains "123.5" "alpha 123" = false ∧
    find_all_kernel_metrics ⟨["Kernel", "Duration"], [["alpha", "123.5"], ["beta", "678.0"]]⟩
      "ALPHA" ["Duration"] = [] ∧
    find_all_kernel_metrics ⟨["Kernel", "Duration"], [["alpha", "123.5"], ["beta", "678.0"]]⟩
      "23.5" ["Duration"] = [("Duration", "123.5")] := by
  decide

theorem any_perm_inv {a b : List String} (p : String → Bool) (h : a.Perm b) :
    a.any p = b.any p := by
  rw [Bool.eq_iff_iff, List.any_eq_true, List.any_eq_true]
  exact ⟨fun ⟨x, hx, px⟩ => ⟨x, h.mem_iff.mp hx, px⟩,
    fun ⟨x, hx, px⟩ => ⟨x, h.mem_iff.mpr hx, px⟩⟩

theorem rowMatches_perm (k : String) (hk : ' ' ∉ k.data) {r r2 : List String}
    (h : r.Perm r2) : rowMatches k r = rowMatches k r2 := by
  cases r with
  | nil =>
    have : r2 = [] := h.nil_eq.symm
    rw [this]
  | cons c rest =>
    have hne : r2 ≠ [] := by
      intro h2
      rw [h2] at h
      exact absurd h.symm.nil_eq (by simp)
    rw [rowMatches_eq_any k hk (c :: rest) (by simp),
      rowMatches_eq_any k hk r2 hne]
    exact any_perm_inv _ h

theorem map_getD_range : ∀ (r : List String),
    (List.range r.length).map (fun j => r.getD j "") = r := by
  intro r
  induction r with
  | nil => rfl
  | cons c rest ih =>
    rw [List.length_cons, List.range_succ_eq_map, List.map_cons, List.map_map]
    have : ((fun j => (c :: rest).getD j "") ∘ (· + 1)) = fun j => rest.getD j "" := by
      funext j
      simp [Function.comp, List.getD_cons_succ]
    rw [this, ih]
    simp

/-- Column reordering: `σ` lists the column indices in their new order; the
headers and every row are reindexed by it. `permuteCols σ t` with `σ` a
permutation of `range t.headers.length` is the table `t` with its columns
permuted. -/
def permuteCols (σ : List Nat) (t : Table) : Table :=
  ⟨σ.map (fun j => t.headers.getD j ""),
   t.rows.map (fun r => σ.map (fun j => r.getD j ""))⟩

theorem permuted_row_perm {σ : List Nat} {n : Nat} (hσ : σ.Perm (List.range n))
    {r : List String} (hr : r.length = n) :
    (σ.map (fun j => r.getD j "")).Perm r := by
  have h1 : (σ.map (fun j => r.getD j "")).Perm
      ((List.range n).map (fun j => r.getD j "")) := hσ.map _
  rw [← hr] at h1
  rw [map_getD_range r] at h1
  exact h1

/-- C4 (amended): for a row substring containing no space character that
matches exactly one row, the single-metric lookup selects that unique row, and
the same row is selected after any permutation of the table's columns. (The
unrestricted claim is refuted by `C4_counterexample`: a substring containing a
space can match across a cell boundary, and reordering columns can then change
which row matches.) -/
theorem C4_unique_row_perm_invariant (t : Table) (σ : List Nat) (k : String)
    (i : Nat) (hk : ' ' ∉ k.data)
    (hσ : σ.Perm (List.range t.headers.length))
    (hrect : ∀ r ∈ t.rows, r.length = t.headers.length)
    (hi : i < t.rows.length)
    (hm : rowMatches k (t.rows.getD i []) = true)
    (hu : ∀ j, j < t.rows.length → j ≠ i → rowMatches k (t.rows.getD j []) = false) :
    findRowIdx t k = some i ∧ findRowIdx (permuteCols σ t) k = some i := by
  have h1 : findRowIdx t k = some i := firstIdx_unique [] hi hm hu
  refine ⟨h1, ?_⟩
  show firstIdx (rowMatches k) (t.rows.map (fun r => σ.map (fun j => r.getD j ""))) = some i
  rw [firstIdx_map (rowMatches k) _ t.rows]
  rw [firstIdx_congr (q := rowMatches k) (fun r hr =>
    rowMatches_perm k hk (permuted_row_perm hσ (hrect r hr)))]
  exact h1

/-- Counterexample to C4 as stated: in the table with headers `["A","B"]` and
rows `[["a","b"],["b a","x"]]`, the row substring "b a" matches exactly one
row (the second: its joined text is "b a x"; the first row's joined text
"a b" does not contain it), yet after swapping the two columns the first row's
joined text becomes "b a" and the lookup selects row 0 instead of row 1: the
selected row is not invariant under column permutation. -/
theorem C4_counterexample :
    rowMatches "b a" ["a", "b"] = false ∧
    rowMatches "b a" ["b a", "x"] = true ∧
    findRowIdx ⟨["A", "B"], [["a", "b"], ["b a", "x"]]⟩ "b a" = some 1 ∧
    findRowIdx (permuteCols [1, 0] ⟨["A", "B"], [["a", "b"], ["b a", "x"]]⟩) "b a" =
      some 0 ∧
    (permuteCols [1, 0] ⟨["A", "B"], [["a", "b"], ["b a", "x"]]⟩).rows.getD 0 [] =
      ["b", "a"] := by
  decide

/-- Witness for C4: the space-free substring "x" matches exactly row 1 of the
same table, and row 1 is selected both before and after swapping the columns. -/
theorem C4_unique_row_perm_invariant_witness :
    findRowIdx ⟨["A", "B"], [["a", "b"], ["b a", "x"]]⟩ "x" = some 1 ∧
    findRowIdx (permuteCols [1, 0] ⟨["A", "B"], [["a", "b"], ["b a", "x"]]⟩) "x" =
      some 1 :=
  C4_unique_row_perm_invariant ⟨["A", "B"], [["a", "b"], ["b a", "x"]]⟩ [1, 0] "x" 1
    (by decide) (by decide) (by decide) (by decide) (by decide) (by decide)

/-- One sweep configuration: batch size, vocabulary size, top-K and dtype, as
produced by the four nested loops of nsys_ncu_profiling.py. -/
abbrev SweepPoint := Nat × Nat × Nat × String

/-- The `_B{B}_N{N}_topK{K}_{dtype}` tail of the f-string
`f"{kernel_name}_B{B}_N{N}_topK{K}_{dtype}"` (nsys_ncu_profiling.py line 50):
the part of an output name determined by the four dimension values. -/
def pointSuffix (p : SweepPoint) : String :=
  "_B" ++ Nat.repr p.1 ++ "_N" ++ Nat.repr p.2.1 ++ "_topK" ++ Nat.repr p.2.2.1
    ++ "_" ++ p.2.2.2

/-- The output name `f"{kernel_name}_B{B}_N{N}_topK{K}_{dtype}"` computed at
the top of each loop body from the current value of the `kernel_name`
variable. -/
def outputName (kernel_name : String) (p : SweepPoint) : String :=
  kernel_name ++ pointSuffix p

/-- The iteration space of both sweep drivers: the four nested `for` loops
over `B_values`, `N_values`, `K_values` and `dtypes`, in that nesting order. -/
def sweepPoints (B_values N_values K_values : List Nat) (dtypes : List String) :
    List SweepPoint :=
  B_values.flatMap (fun B =>
    N_values.flatMap (fun N =>
      K_values.flatMap (fun K =>
        dtypes.map (fun dtype => (B, N, K, dtype)))))

/-- One line of the summary CSV written by `nsys_profile_samplingtopK`
(after the header `Kernel,B,N,top-K,dtype,Average Time(ns)`): the Python
`writer.writerow([kernel_name, B, N, K, dtype, Avg])`, where `Avg` is the
lookup result and `none` models Python's `None` (serialized as an empty CSV
cell). -/
structure SummaryRow where
  kernel : String
  B : Nat
  N : Nat
  K : Nat
  dtype : String
  avg : Option String
deriving DecidableEq

/-- Mutable state of the nsys sweep loop: the `kernel_name` local variable
(which the loop body reassigns), the output names of the invocations attempted
so far, the summary rows written so far, and the failure diagnostics printed
so far. -/
structure NsysState where
  kernelName : String
  attempted : List String
  summary : List SummaryRow
  diags : List String

/-- One iteration of the nsys loop body (nsys_ncu_profiling.py lines 49-97).
`runOk p` abstracts whether the two external commands (`nsys_easy` profile and
`nsys stats` export) exit successfully at sweep point `p`; `load p` abstracts
the attempt to read the exported trace CSV. On success the body looks up the
"Duration" metric for the sub-kernels "topKStage1" and "topKStage2Sampling"
(assigning those strings to the `kernel_name` variable as it goes) and writes
one summary row per sub-kernel, `Avg` included even when the lookup returned
`None`; on a `CalledProcessError` it prints the task-failed diagnostic and
continues. -/
def nsysStep (runOk : SweepPoint → Bool) (load : SweepPoint → LoadResult)
    (s : NsysState) (p : SweepPoint) : NsysState :=
  let oname := outputName s.kernelName p
  if runOk p then
    { kernelName := "topKStage2Sampling",
      attempted := s.attempted ++ [oname],
      summary := s.summary ++
        [⟨"topKStage1", p.1, p.2.1, p.2.2.1, p.2.2.2,
          (find_kernel_metric_io (load p) "topKStage1" "Duration").1⟩,
         ⟨"topKStage2Sampling", p.1, p.2.1, p.2.2.1, p.2.2.2,
          (find_kernel_metric_io (load p) "topKStage2Sampling" "Duration").1⟩],
      diags := s.diags }
  else
    { s with
      attempted := s.attempted ++ [oname],
      diags := s.diags ++ ["Task failed: " ++ oname] }

/-- `nsys_profile_samplingtopK` (nsys_ncu_profiling.py lines 7-101): the four
nested loops folded over the iteration space, starting from the configured
`kernel_name` parameter and empty outputs. -/
def nsys_profile_samplingtopK (B_values N_values K_values : List Nat)
    (dtypes : List String) (kernel_name : String) (runOk : SweepPoint → Bool)
    (load : SweepPoint → LoadResult) : NsysState :=
  (sweepPoints B_values N_values K_values dtypes).foldl (nsysStep runOk load)
    ⟨kernel_name, [], [], []⟩

/-- Mutable state of the ncu sweep loop: attempted output names and failure
diagnostics (this variant writes no summary). -/
structure NcuState where
  attempted : List String
  diags : List String

/-- One iteration of the ncu loop body (nsys_ncu_profiling.py lines 137-159):
run the `ncu` command, print the task-failed diagnostic on a
`CalledProcessError`, and continue. The `kernel_name` parameter is never
reassigned in this variant. -/
def ncuStep (kernel_name : String) (runOk : SweepPoint → Bool)
    (s : NcuState) (p : SweepPoint) : NcuState :=
  let oname := outputName kernel_name p
  if runOk p then
    { s with attempted := s.attempted ++ [oname] }
  else
    { attempted := s.attempted ++ [oname],
      diags := s.diags ++ ["Task failed: " ++ oname] }

/-- `ncu_profile_samplingtopK` (nsys_ncu_profiling.py lines 103-162). -/
def ncu_profile_samplingtopK (B_values N_values K_values : List Nat)
    (dtypes : List String) (kernel_name : String) (runOk : SweepPoint → Bool) :
    NcuState :=
  (sweepPoints B_values N_values K_values dtypes).foldl (ncuStep kernel_name runOk)
    ⟨[], []⟩

theorem length_flatMap_const {α β : Type} (l : List α) (f : α → List β) (c : Nat)
    (h : ∀ a ∈ l, (f a).length = c) : (l.flatMap f).length = l.length * c := by
  induction l with
  | nil => simp
  | cons x xs ih =>
    rw [List.flatMap_cons, List.length_append, h x (List.mem_cons_self x xs),
      ih (fun a ha => h a (List.mem_cons_of_mem x ha)), List.length_cons]
    ring

theorem sweepPoints_length (B_values N_values K_values : List Nat)
    (dtypes : List String) :
    (sweepPoints B_values N_values K_values dtypes).length =
      B_values.length * N_values.length * K_values.length * dtypes.length := by
  have h2 : ∀ B N : Nat,
      (K_values.flatMap (fun K => dtypes.map (fun dtype => (B, N, K, dtype)))).length =
        K_values.length * dtypes.length :=
    fun B N => length_flatMap_const _ _ _ (fun K _ => by simp)
  have h3 : ∀ B : Nat,
      (N_values.flatMap (fun N => K_values.flatMap
        (fun K => dtypes.map (fun dtype => (B, N, K, dtype))))).length =
        N_values.length * (K_values.length * dtypes.length) :=
    fun B => length_flatMap_const _ _ _ (fun N _ => h2 B N)
  have h4 := length_flatMap_const B_values _
    (N_values.length * (K_values.length * dtypes.length)) (fun B _ => h3 B)
  rw [sweepPoints, h4]
  ring

theorem nsysStep_attempted_length (runOk : SweepPoint → Bool)
    (load : SweepPoint → LoadResult) (s : NsysState) (p : SweepPoint) :
    ((nsysStep runOk load s p).attempted).length = s.attempted.length + 1 := by
  cases h : runOk p <;> simp [nsysStep, h]

theorem foldl_nsys_attempted (runOk : SweepPoint → Bool)
    (load : SweepPoint → LoadResult) (pts : List SweepPoint) :
    ∀ s : NsysState, ((pts.foldl (nsysStep runOk load) s).attempted).length =
      s.attempted.length + pts.length := by
  induction pts with
  | nil => intro s; simp
  | cons p rest ih =>
    intro s
    rw [List.foldl_cons, ih, nsysStep_attempted_length, List.length_cons]
    omega

theorem foldl_nsys_summary_mono (runOk : SweepPoint → Bool)
    (load : SweepPoint → LoadResult) (pts : List SweepPoint) :
    ∀ (s : NsysState) (x : SummaryRow), x ∈ s.summary →
      x ∈ ((pts.foldl (nsysStep runOk load) s).summary) := by
  induction pts with
  | nil => intro s x hx; simpa using hx
  | cons p rest ih =>
    intro s x hx
    rw [List.foldl_cons]
    refine ih _ x ?_
    cases h : runOk p <;> simp [nsysStep, h, hx]

theorem foldl_nsys_diags_mono (runOk : SweepPoint → Bool)
    (load : SweepPoint → LoadResult) (pts : List SweepPoint) :
    ∀ (s : NsysState) (x : String), x ∈ s.diags →
      x ∈ ((pts.foldl (nsysStep runOk load) s).diags) := by
  induction pts with
  | nil => intro s x hx; simpa using hx
  | cons p rest ih =>
    intro s x hx
    rw [List.foldl_cons]
    refine ih _ x ?_
    cases h : runOk p <;> simp [nsysStep, h, hx]

theorem foldl_nsys_row_of_ok (runOk : SweepPoint → Bool)
    (load : SweepPoint → LoadResult) (pts : List SweepPoint) :
    ∀ (s : NsysState) (p : SweepPoint), p ∈ pts → runOk p = true →
      (⟨"topKStage1", p.1, p.2.1, p.2.2.1, p.2.2.2,
        (find_kernel_metric_io (load p) "topKStage1" "Duration").1⟩ : SummaryRow)
        ∈ ((pts.foldl (nsysStep runOk load) s).summary) := by
  induction pts with
  | nil => intro s p hp; exact absurd hp (by simp)
  | cons q rest ih =>
    intro s p hp hok
    rw [List.foldl_cons]
    rcases List.mem_cons.mp hp with hpq | hpr
    · subst hpq
      refine foldl_nsys_summary_mono runOk load rest _ _ ?_
      simp [nsysStep, hok]
    · exact ih _ p hpr hok

theorem foldl_nsys_diag_of_fail (runOk : SweepPoint → Bool)
    (load : SweepPoint → LoadResult) (pts : List SweepPoint) :
    ∀ (s : NsysState) (p : SweepPoint), p ∈ pts → runOk p = false →
      ∃ m ∈ ((pts.foldl (nsysStep runOk load) s).diags),
        ∃ pre, m = pre ++ pointSuffix p := by
  induction pts with
  | nil => intro s p hp; exact absurd hp (by simp)
  | cons q rest ih =>
    intro s p hp hfail
    rw [List.foldl_cons]
    rcases List.mem_cons.mp hp with hpq | hpr
    · subst hpq
      refine ⟨"Task failed: " ++ outputName s.kernelName p,
        foldl_nsys_diags_mono runOk load rest _ _ ?_,
        "Task failed: " ++ s.kernelName, ?_⟩
      · simp [nsysStep, hfail]
      · rw [outputName, ← String.append_assoc]
    · exact ih _ p hpr hfail

theorem ncuStep_attempted_length (kernel_name : String) (runOk : SweepPoint → Bool)
    (s : NcuState) (p : SweepPoint) :
    ((ncuStep kernel_name runOk s p).attempted).length = s.attempted.length + 1 := by
  cases h : runOk p <;> simp [ncuStep, h]

theorem foldl_ncu_attempted (kernel_name : String) (runOk : SweepPoint → Bool)
    (pts : List SweepPoint) :
    ∀ s : NcuState, ((pts.foldl (ncuStep kernel_name runOk) s).attempted).length =
      s.attempted.length + pts.length := by
  induction pts with
  | nil => intro s; simp
  | cons p rest ih =>
    intro s
    rw [List.foldl_cons, ih, ncuStep_attempted_length, List.length_cons]
    omega

theorem foldl_ncu_diags_mono (kernel_name : String) (runOk : SweepPoint → Bool)
    (pts : List SweepPoint) :
    ∀ (s : NcuState) (x : String), x ∈ s.diags →
      x ∈ ((pts.foldl (ncuStep kernel_name runOk) s).diags) := by
  induction pts with
  | nil => intro s x hx; simpa using hx
  | cons p rest ih =>
    intro s x hx
    rw [List.foldl_cons]
    refine ih _ x ?_
    cases h : runOk p <;> simp [ncuStep, h, hx]

theorem foldl_ncu_diag_of_fail (kernel_name : String) (runOk : SweepPoint → Bool)
    (pts : List SweepPoint) :
    ∀ (s : NcuState) (p : SweepPoint), p ∈ pts → runOk p = false →
      ∃ m ∈ ((pts.foldl (ncuStep kernel_name runOk) s).diags),
        ∃ pre, m = pre ++ pointSuffix p := by
  induction pts with
  | nil => intro s p hp; exact absurd hp (by simp)
  | cons q rest ih =>
    intro s p hp hfail
    rw [List.foldl_cons]
    rcases List.mem_cons.mp hp with hpq | hpr
    · subst hpq
      refine ⟨"Task failed: " ++ outputName kernel_name p,
        foldl_ncu_diags_mono kernel_name runOk rest _ _ ?_,
        "Task failed: " ++ kernel_name, ?_⟩
      · simp [ncuStep, hfail]
      · rw [outputName, ← String.append_assoc]
    · exact ih _ p hpr hfail

theorem find_kernel_metric_io_some (lr : LoadResult) (kernel_name metric_name v : String)
    (h : (find_kernel_metric_io lr kernel_name metric_name).1 = some v) :
    ∃ t rid cid, lr = .ok t ∧ findRowIdx t kernel_name = some rid ∧
      findColIdx t.headers metric_name = some cid ∧ v = cellAt t rid cid := by
  cases lr with
  | missingFile p => simp [find_kernel_metric_io] at h
  | loadError msg => simp [find_kernel_metric_io] at h
  | ok t =>
    cases hr : findRowIdx t kernel_name with
    | none => simp [find_kernel_metric_io, hr] at h
    | some rid =>
      cases hc : findColIdx t.headers metric_name with
      | none => simp [find_kernel_metric_io, hr, hc] at h
      | some cid =>
        simp only [find_kernel_metric_io, hr, hc] at h
        exact ⟨t, rid, cid, rfl, hr, hc, (Option.some_inj.mp h).symm⟩

theorem foldl_nsys_summary_shape (runOk : SweepPoint → Bool)
    (load : SweepPoint → LoadResult) (pts : List SweepPoint) :
    ∀ (s : NsysState) (row : SummaryRow),
      row ∈ ((pts.foldl (nsysStep runOk load) s).summary) →
      row ∈ s.summary ∨
        ∃ p ∈ pts, runOk p = true ∧
          (row.kernel = "topKStage1" ∨ row.kernel = "topKStage2Sampling") ∧
          row.B = p.1 ∧ row.N = p.2.1 ∧ row.K = p.2.2.1 ∧ row.dtype = p.2.2.2 ∧
          row.avg = (find_kernel_metric_io (load p) row.kernel "Duration").1 := by
  induction pts with
  | nil => intro s row h; exact Or.inl (by simpa using h)
  | cons q rest ih =>
    intro s row h
    rw [List.foldl_cons] at h
    rcases ih _ row h with hsq | ⟨p, hp, hok, hrest⟩
    · cases hq : runOk q with
      | false =>
        simp only [nsysStep, hq, Bool.false_eq_true, if_false] at hsq
        exact Or.inl hsq
      | true =>
        simp only [nsysStep, hq, if_true] at hsq
        rcases List.mem_append.mp hsq with hs | hnew
        · exact Or.inl hs
        · rcases List.mem_cons.mp hnew with h1 | h2
          · subst h1
            exact Or.inr ⟨q, List.mem_cons_self q rest, hq,
              Or.inl rfl, rfl, rfl, rfl, rfl, rfl⟩
          · rcases List.mem_cons.mp h2 with h1 | h3
            · subst h1
              exact Or.inr ⟨q, List.mem_cons_self q rest, hq,
                Or.inr rfl, rfl, rfl, rfl, rfl, rfl⟩
            · exact absurd h3 (by simp)
    · exact Or.inr ⟨p, List.mem_cons_of_mem q hp, hok, hrest⟩

/-- C7: the sweep driver does attempt exactly |B|·|N|·|K|·|dtypes| invocations,
but the output names are NOT derived from the four dimension values alone: the
loop body reassigns the `kernel_name` variable (to "topKStage1" and then
"topKStage2Sampling") inside the `try` block, so after the first fully
successful iteration every later output name is prefixed
"topKStage2Sampling" instead of the configured kernel name. Concretely, with
B values [1,2], N=[7], K=[3], dtype ["float32"] and every external command
succeeding, the second attempted name is
"topKStage2Sampling_B2_N7_topK3_float32"; with every command failing, it is
"samplingtopK_B2_N7_topK3_float32" — the same sweep point's name depends on
the success history, contradicting the claim. -/
theorem C7_output_name_depends_on_history :
    (nsys_profile_samplingtopK [1, 2] [7] [3] ["float32"] "samplingtopK"
        (fun _ => true) (fun _ => LoadResult.ok sampleTable)).attempted =
      ["samplingtopK_B1_N7_topK3_float32", "topKStage2Sampling_B2_N7_topK3_float32"] ∧
    (nsys_profile_samplingtopK [1, 2] [7] [3] ["float32"] "samplingtopK"
        (fun _ => false) (fun _ => LoadResult.ok sampleTable)).attempted =
      ["samplingtopK_B1_N7_topK3_float32", "samplingtopK_B2_N7_topK3_float32"] ∧
    (sweepPoints [1, 2] [7] [3] ["float32"]).length = 2 * 1 * 1 * 1 := by
  refine ⟨?_, ?_, ?_⟩ <;> decide

/-- C8: in both sweep drivers, a failing external command at any sweep point
is reported with a diagnostic carrying that point's `_B..._N..._topK..._dtype`
configuration suffix, and never prevents later points from being attempted:
the number of attempted invocations is always the full |B|·|N|·|K|·|dtypes|
product, and every successful point's summary rows are present regardless of
which other points failed. -/
theorem C8_failure_isolation (B_values N_values K_values : List Nat)
    (dtypes : List String) (kernel_name : String) (runOk : SweepPoint → Bool)
    (load : SweepPoint → LoadResult) :
    ((nsys_profile_samplingtopK B_values N_values K_values dtypes kernel_name
        runOk load).attempted.length =
      B_values.length * N_values.length * K_values.length * dtypes.length) ∧
    (∀ p ∈ sweepPoints B_values N_values K_values dtypes, runOk p = true →
      (⟨"topKStage1", p.1, p.2.1, p.2.2.1, p.2.2.2,
        (find_kernel_metric_io (load p) "topKStage1" "Duration").1⟩ : SummaryRow)
        ∈ (nsys_profile_samplingtopK B_values N_values K_values dtypes kernel_name
            runOk load).summary) ∧
    (∀ p ∈ sweepPoints B_values N_values K_values dtypes, runOk p = false →
      ∃ m ∈ (nsys_profile_samplingtopK B_values N_values K_values dtypes kernel_name
          runOk load).diags, ∃ pre, m = pre ++ pointSuffix p) ∧
    ((ncu_profile_samplingtopK B_values N_values K_values dtypes kernel_name
        runOk).attempted.length =
      B_values.length * N_values.length * K_values.length * dtypes.length) ∧
    (∀ p ∈ sweepPoints B_values N_values K_values dtypes, runOk p = false →
      ∃ m ∈ (ncu_profile_samplingtopK B_values N_values K_values dtypes kernel_name
          runOk).diags, ∃ pre, m = pre ++ pointSuffix p) := by
  refine ⟨?_, ?_, ?_, ?_, ?_⟩
  · rw [nsys_profile_samplingtopK, foldl_nsys_attempted, sweepPoints_length]
    simp
  · intro p hp hok
    exact foldl_nsys_row_of_ok runOk load _ _ p hp hok
  · intro p hp hfail
    exact foldl_nsys_diag_of_fail runOk load _ _ p hp hfail
  · rw [ncu_profile_samplingtopK, foldl_ncu_attempted, sweepPoints_length]
    simp
  · intro p hp hfail
    exact foldl_ncu_diag_of_fail kernel_name runOk _ _ p hp hfail

/-- Witness for C8: a sweep over B values [1,8] in which the external command
fails exactly for B=8 still attempts both points, contains the summary row for
the successful B=1 point, and records a diagnostic carrying the failed B=8
configuration. -/
theorem C8_failure_isolation_witness :
    ((nsys_profile_samplingtopK [1, 8] [7] [3] ["f32"] "samplingtopK"
        (fun p => !(p.1 == 8)) (fun _ => LoadResult.ok sampleTable)).attempted.length =
      2 * 1 * 1 * 1) ∧
    ((⟨"topKStage1", 1, 7, 3, "f32",
        (find_kernel_metric_io (LoadResult.ok sampleTable) "topKStage1" "Duration").1⟩ :
          SummaryRow)
      ∈ (nsys_profile_samplingtopK [1, 8] [7] [3] ["f32"] "samplingtopK"
          (fun p => !(p.1 == 8)) (fun _ => LoadResult.ok sampleTable)).summary) ∧
    (∃ m ∈ (nsys_profile_samplingtopK [1, 8] [7] [3] ["f32"] "samplingtopK"
        (fun p => !(p.1 == 8)) (fun _ => LoadResult.ok sampleTable)).diags,
      ∃ pre, m = pre ++ pointSuffix (8, 7, 3, "f32")) :=
  ⟨(C8_failure_isolation [1, 8] [7] [3] ["f32"] "samplingtopK"
      (fun p => !(p.1 == 8)) (fun _ => LoadResult.ok sampleTable)).1,
   (C8_failure_isolation [1, 8] [7] [3] ["f32"] "samplingtopK"
      (fun p => !(p.1 == 8)) (fun _ => LoadResult.ok sampleTable)).2.1
     (1, 7, 3, "f32") (by decide) (by decide),
   (C8_failure_isolation [1, 8] [7] [3] ["f32"] "samplingtopK"
      (fun p => !(p.1 == 8)) (fun _ => LoadResult.ok sampleTable)).2.2.1
     (8, 7, 3, "f32") (by decide) (by decide)⟩

/-- C9 (amended): every summary row written by the sweep driver belongs to a
successful sweep point, carries that point's four dimension values and one of
the two sub-kernel labels, and its metric value is exactly the lookup result
for that point's trace table — either the cell at the unique (row, column)
intersection found by the search, or the explicit not-found marker `None`
carried in the row itself. (The claim's assertion that a not-found row is
absent from the summary is refuted by `C9_counterexample`: the code writes the
row unconditionally, with `None` in the value field; a diagnostic is still
emitted by the lookup.) No row carries a stale or partially-read value. -/
theorem C9_summary_value_provenance (B_values N_values K_values : List Nat)
    (dtypes : List String) (kernel_name : String) (runOk : SweepPoint → Bool)
    (load : SweepPoint → LoadResult) (row : SummaryRow)
    (h : row ∈ (nsys_profile_samplingtopK B_values N_values K_values dtypes
      kernel_name runOk load).summary) :
    ∃ p ∈ sweepPoints B_values N_values K_values dtypes, runOk p = true ∧
      (row.kernel = "topKStage1" ∨ row.kernel = "topKStage2Sampling") ∧
      row.B = p.1 ∧ row.N = p.2.1 ∧ row.K = p.2.2.1 ∧ row.dtype = p.2.2.2 ∧
      row.avg = (find_kernel_metric_io (load p) row.kernel "Duration").1 ∧
      (∀ v, row.avg = some v → ∃ t rid cid, load p = .ok t ∧
        findRowIdx t row.kernel = some rid ∧
        findColIdx t.headers "Duration" = some cid ∧ v = cellAt t rid cid) := by
  rcases foldl_nsys_summary_shape runOk load _ _ row h with h0 | ⟨p, hp, hok, hk, hB, hN, hK, hd, hv⟩
  · exact absurd h0 (by simp)
  · refine ⟨p, hp, hok, hk, hB, hN, hK, hd, hv, ?_⟩
    intro v hval
    exact find_kernel_metric_io_some (load p) row.kernel "Duration" v
      (by rw [← hv]; exact hval)

/-- Counterexample to C9 as stated: with a trace table containing no row
matching "topKStage1", the lookup finds no value, yet the corresponding
summary row is NOT absent — it is present with `None` in its value field. -/
theorem C9_counterexample :
    (find_kernel_metric_io
        (.ok ⟨["Kernel", "Duration"], [["otherKernel", "5"]]⟩)
        "topKStage1" "Duration").1 = none ∧
    (⟨"topKStage1", 1, 2, 3, "f32", none⟩ : SummaryRow) ∈
      (nsys_profile_samplingtopK [1] [2] [3] ["f32"] "samplingtopK"
        (fun _ => true)
        (fun _ => LoadResult.ok ⟨["Kernel", "Duration"], [["otherKernel", "5"]]⟩)).summary := by
  refine ⟨?_, ?_⟩ <;> decide

/-- Witness for C9: on a concrete successful run over the spec table, the
"topKStage1" summary row is traced back to its sweep point with its value
equal to the lookup result. -/
theorem C9_summary_value_provenance_witness :
    ∃ p ∈ sweepPoints [1] [7] [3] ["f32"], (fun _ : SweepPoint => true) p = true ∧
      ((⟨"topKStage1", 1, 7, 3, "f32", some "43392.0"⟩ : SummaryRow).kernel = "topKStage1" ∨
       (⟨"topKStage1", 1, 7, 3, "f32", some "43392.0"⟩ : SummaryRow).kernel = "topKStage2Sampling") ∧
      (⟨"topKStage1", 1, 7, 3, "f32", some "43392.0"⟩ : SummaryRow).B = p.1 ∧
      (⟨"topKStage1", 1, 7, 3, "f32", some "43392.0"⟩ : SummaryRow).N = p.2.1 ∧
      (⟨"topKStage1", 1, 7, 3, "f32", some "43392.0"⟩ : SummaryRow).K = p.2.2.1 ∧
      (⟨"topKStage1", 1, 7, 3, "f32", some "43392.0"⟩ : SummaryRow).dtype = p.2.2.2 ∧
      (⟨"topKStage1", 1, 7, 3, "f32", some "43392.0"⟩ : SummaryRow).avg =
        (find_kernel_metric_io ((fun _ : SweepPoint => LoadResult.ok sampleTable) p)
          (⟨"topKStage1", 1, 7, 3, "f32", some "43392.0"⟩ : SummaryRow).kernel "Duration").1 ∧
      (∀ v, (⟨"topKStage1", 1, 7, 3, "f32", some "43392.0"⟩ : SummaryRow).avg = some v →
        ∃ t rid cid, (fun _ : SweepPoint => LoadResult.ok sampleTable) p = .ok t ∧
          findRowIdx t (⟨"topKStage1", 1, 7, 3, "f32", some "43392.0"⟩ : SummaryRow).kernel = some rid ∧
          findColIdx t.headers "Duration" = some cid ∧ v = cellAt t rid cid) :=
  C9_summary_value_provenance [1] [7] [3] ["f32"] "samplingtopK"
    (fun _ => true) (fun _ => LoadResult.ok sampleTable)
    ⟨"topKStage1", 1, 7, 3, "f32", some "43392.0"⟩ (by decide)

/-- Witness for C6: concrete instances — a missing file "data.csv" yields the
file diagnostic, which differs from the row-not-found diagnostic, and a load
failure surfaces as the not-found result with a diagnostic in both lookups. -/
theorem C6_failure_semantics_witness :
    find_kernel_metric_io (.missingFile "data.csv") "topKStage1" "Duration" =
      (none, [Diag.fileNotFound "data.csv"]) ∧
    Diag.fileNotFound "data.csv" ≠ Diag.kernelNotFound "topKStage1" ∧
    find_all_kernel_metrics_io (.loadError "bad header") "topKStage1" ["Duration"] =
      ([], [Diag.processError "bad header"]) :=
  ⟨(C6_failure_semantics.1 "data.csv" "bad header" "topKStage1" "Duration").1,
   (C6_failure_semantics.2.1 "data.csv" "topKStage1" "Duration").1,
   (C6_failure_semantics.2.2 "data.csv" "bad header" "topKStage1" ["Duration"]).2⟩
